import Mathlib

/-!
Verification of the gowebdavd supervisor and serving process against its
specification.  The definitions below are a shallow embedding of the Go
source: `internal/pidfile` (the liveness registry), the `daemon` package
(the Supervisor: `Daemon.Start` / `Daemon.Stop` / `Daemon.Status`), and
`internal/server`'s `traversalProtection` middleware.  Machine integers are
modelled as `Int` with the 64-bit range made explicit where Go's
`strconv.Atoi` checks it; fallible operations return explicit result types;
file-system and process effects are modelled by explicit state passing and
event traces.
-/

namespace Gowebdavd

/-! ## Model of `strconv.Itoa` / `strconv.Atoi`

`internal/pidfile/pidfile.go` stores the pid with
`strconv.Itoa(pid)` and parses it back with `strconv.Atoi(string(data))`.
-/

/-- The decimal digit character for `n < 10` (code point `48 + n`),
as produced by Go's `strconv` formatting. -/
def digitChar (n : Nat) : Char := Char.ofNat (48 + n)

/-- Fuel-driven digit extraction, least significant digit first; the fuel is
structurally decreasing so the definition reduces inside the kernel. -/
def natToRevDigitsAux : Nat → Nat → List Char
  | _, 0 => []
  | 0, _ + 1 => []
  | fuel + 1, n + 1 => digitChar ((n + 1) % 10) :: natToRevDigitsAux fuel ((n + 1) / 10)

/-- Decimal digits of `n`, least significant first; empty for `0`. -/
def natToRevDigits (n : Nat) : List Char := natToRevDigitsAux n n

/-- The fuel argument of `natToRevDigitsAux` is irrelevant once it dominates
the number being converted. -/
theorem natToRevDigitsAux_irrel :
    ∀ f g n : Nat, n ≤ f → n ≤ g → natToRevDigitsAux f n = natToRevDigitsAux g n := by
  intro f
  induction f with
  | zero =>
    intro g n hf _
    interval_cases n
    cases g <;> rfl
  | succ f ih =>
    intro g n hf hg
    match n, g with
    | 0, g => cases g <;> rfl
    | m + 1, 0 => omega
    | m + 1, g + 1 =>
      have hdiv : (m + 1) / 10 < m + 1 := Nat.div_lt_self (Nat.succ_pos m) (by decide)
      simp only [natToRevDigitsAux]
      rw [ih g ((m + 1) / 10) (by omega) (by omega)]

/-- Recurrence for `natToRevDigits` on a positive argument. -/
theorem natToRevDigits_succ (m : Nat) :
    natToRevDigits (m + 1) = digitChar ((m + 1) % 10) :: natToRevDigits ((m + 1) / 10) := by
  have hdiv : (m + 1) / 10 < m + 1 := Nat.div_lt_self (Nat.succ_pos m) (by decide)
  show natToRevDigitsAux (m + 1) (m + 1) = _
  simp only [natToRevDigitsAux]
  rw [natToRevDigitsAux_irrel m ((m + 1) / 10) ((m + 1) / 10) (by omega) (le_refl _)]
  rfl

/-- Model of Go's `strconv.Itoa`: decimal rendering of a (signed) integer. -/
def intToString (i : Int) : String :=
  if i < 0 then String.mk ('-' :: (natToRevDigits (-i).toNat).reverse)
  else if i = 0 then "0"
  else String.mk (natToRevDigits i.toNat).reverse

/-- Holds exactly for the ASCII digit characters `'0'..'9'`. -/
def isDigitCh (c : Char) : Bool := 48 ≤ c.toNat && c.toNat ≤ 57

/-- Value of a most-significant-first digit string, as accumulated by
`strconv.Atoi`'s conversion loop. -/
def decodeDigits (ds : List Char) : Nat :=
  ds.foldl (fun a c => a * 10 + (c.toNat - 48)) 0

/-- Model of Go's `strconv.Atoi`: an optional leading `'-'` or `'+'`,
then one or more decimal digits; any other content, the empty string, and
values outside the 64-bit signed range yield an error (`none`). -/
def atoi (s : String) : Option Int :=
  match s.data with
  | [] => none
  | c :: cs =>
    let ds := if c = '-' ∨ c = '+' then cs else c :: cs
    if ds = [] then none
    else if ds.all isDigitCh then
      let n := decodeDigits ds
      let v : Int := if c = '-' then -(n : Int) else (n : Int)
      if v < -(2 ^ 63) ∨ (2 ^ 63 : Int) ≤ v then none else some v
    else none

example : atoi "1234" = some 1234 := by decide
example : atoi "invalid" = none := by decide
example : atoi "" = none := by decide
example : atoi "-56" = some (-56) := by decide
example : intToString 1234 = "1234" := by decide

/-- A digit's character code is `48 + k`. -/
theorem digitChar_toNat (k : Nat) (h : k < 10) : (digitChar k).toNat = 48 + k := by
  interval_cases k <;> decide

/-- Digit characters satisfy the digit test. -/
theorem isDigitCh_digitChar (k : Nat) (h : k < 10) : isDigitCh (digitChar k) = true := by
  interval_cases k <;> decide

/-- Every character produced by `natToRevDigits` is a decimal digit. -/
theorem natToRevDigits_all (n : Nat) : (natToRevDigits n).all isDigitCh = true := by
  induction n using Nat.strong_induction_on with
  | _ n ih =>
    match n with
    | 0 => rfl
    | m + 1 =>
      rw [natToRevDigits_succ]
      simp only [List.all_cons, Bool.and_eq_true]
      refine ⟨isDigitCh_digitChar _ (Nat.mod_lt _ (by decide)), ?_⟩
      exact ih ((m + 1) / 10) (Nat.div_lt_self (Nat.succ_pos m) (by decide))

/-- A positive number has at least one digit. -/
theorem natToRevDigits_ne_nil (n : Nat) (h : n ≠ 0) : natToRevDigits n ≠ [] := by
  match n with
  | 0 => exact absurd rfl h
  | m + 1 => rw [natToRevDigits_succ]; exact List.cons_ne_nil _ _

/-- Appending one digit multiplies the decoded value by ten and adds it. -/
theorem decodeDigits_append (l : List Char) (c : Char) :
    decodeDigits (l ++ [c]) = decodeDigits l * 10 + (c.toNat - 48) := by
  simp [decodeDigits, List.foldl_append]

/-- Decoding the (most-significant-first) digits of `n` recovers `n`. -/
theorem decode_natToRevDigits (n : Nat) : decodeDigits (natToRevDigits n).reverse = n := by
  induction n using Nat.strong_induction_on with
  | _ n ih =>
    match n with
    | 0 => rfl
    | m + 1 =>
      rw [natToRevDigits_succ, List.reverse_cons, decodeDigits_append]
      rw [ih ((m + 1) / 10) (Nat.div_lt_self (Nat.succ_pos m) (by decide))]
      rw [digitChar_toNat _ (Nat.mod_lt _ (by decide))]
      have hdm := Nat.div_add_mod (m + 1) 10
      omega

/-- Go round trip: `strconv.Atoi (strconv.Itoa pid)` recovers any positive
pid in the 64-bit signed range. -/
theorem atoi_intToString (pid : Int) (h0 : 0 < pid) (h63 : pid < 2 ^ 63) :
    atoi (intToString pid) = some pid := by
  have hneg : ¬ pid < 0 := by omega
  have hne : pid ≠ 0 := by omega
  have hnat : pid.toNat ≠ 0 := by omega
  rw [intToString, if_neg hneg, if_neg hne]
  obtain ⟨c, cs, hcons⟩ : ∃ c cs, (natToRevDigits pid.toNat).reverse = c :: cs := by
    rcases hrev : (natToRevDigits pid.toNat).reverse with _ | ⟨c, cs⟩
    · exact absurd (List.reverse_eq_nil_iff.mp hrev) (natToRevDigits_ne_nil _ hnat)
    · exact ⟨c, cs, rfl⟩
  have hmem : c ∈ natToRevDigits pid.toNat := by
    have : c ∈ (natToRevDigits pid.toNat).reverse := by rw [hcons]; exact List.mem_cons_self c cs
    simpa using this
  have hdig : isDigitCh c = true := by
    have hall := natToRevDigits_all pid.toNat
    rw [List.all_eq_true] at hall
    exact hall c hmem
  have hcpm : ¬ (c = '-' ∨ c = '+') := by
    rintro (rfl | rfl) <;> simp [isDigitCh] at hdig
  have hcm : ¬ c = '-' := fun h => hcpm (Or.inl h)
  have hall2 : (c :: cs).all isDigitCh = true := by
    rw [← hcons, List.all_reverse]
    exact natToRevDigits_all pid.toNat
  have hdecode : decodeDigits (c :: cs) = pid.toNat := by
    rw [← hcons]
    exact decode_natToRevDigits pid.toNat
  rw [hcons]
  simp only [atoi, if_neg hcpm, List.cons_ne_nil, if_false, if_pos hall2, if_neg hcm, hdecode]
  have htn : ((pid.toNat : Int)) = pid := Int.toNat_of_nonneg (le_of_lt h0)
  rw [htn, if_neg (by omega)]

/-! ## Liveness registry: `internal/pidfile/pidfile.go`

The registry record is the PID file's content, modelled as `Option String`
(`none` when the file is absent).  `file.Read` maps a missing file to an
I/O error (`notFound`), unparseable content to the `invalid PID in file`
error (`corrupt`), and otherwise returns the parsed pid.  `file.Write`
overwrites the record with `strconv.Itoa pid`; it is modelled as atomic
(on error the content is unchanged).  `file.Remove` deletes the record. -/

/-- Result of `file.Read`: the parsed pid, a missing-file error, or the
`invalid PID in file` parse error. -/
inductive ReadResult where
  | ok (pid : Int)
  | notFound
  | corrupt
deriving DecidableEq, Repr

/-- Model of `file.Read` on a record state. -/
def fileRead : Option String → ReadResult
  | none => .notFound
  | some s =>
    match atoi s with
    | some pid => .ok pid
    | none => .corrupt

/-- Model of a successful `file.Write pid`: the record is overwritten (not
merged) with the decimal rendering of `pid`. -/
def fileWrite (pid : Int) : Option String := some (intToString pid)

example : fileRead (fileWrite 1234) = .ok 1234 := by decide
example : fileRead (some "invalid") = .corrupt := by decide
example : fileRead none = .notFound := by decide

/-! ## Supervisor: the `daemon` package (`Daemon.Start/Stop/Status`)

The Supervisor is re-entered on every invocation with no in-memory state;
the registry record is the sole cross-invocation state.  Each command is
embedded as a function from an environment (the outcomes the OS would give
to process-control and spawn calls) and the record state to the command's
outcome, the new record state, and the trace of registry/process events it
performed, in order. -/

/-- One observable action of a Supervisor command: a registry operation
(`lock`/`unlock` via `file.Lock`/`file.Unlock`, `read`, `write`, `remove`)
or a process operation (successful `cmd.Start`, `Manager.Terminate`,
`Manager.Kill` / `cmd.Process.Kill`). -/
inductive Event where
  | lock
  | unlock
  | read
  | write (pid : Int)
  | remove
  | spawned (pid : Int)
  | terminate (pid : Int)
  | kill (pid : Int)
deriving DecidableEq, Repr

/-- Environment of a Supervisor command: results the process manager and
the spawn call would return. `spawnResult = some pid` means `cmd.Start()`
succeeds and creates process `pid`; `writeOk` is whether `file.Write`
succeeds. -/
structure Env where
  running : Int → Bool
  terminateOk : Int → Bool
  killOk : Int → Bool
  spawnResult : Option Int
  writeOk : Bool

/-- The one status line a command prints on its success path.  The
constructors correspond to the exact `fmt.Printf` strings of the source:
`alreadyRunning pid` is "Service is already running (PID: %d)",
`started pid` is "Service started (PID: %d)", `notRunning` is
"Service is not running", `stopped` is "Service stopped", `runningPid pid`
is "Service is running (PID: %d)", and `staleGone pid` is
"PID file exists but process %d not found". -/
inductive Msg where
  | alreadyRunning (pid : Int)
  | started (pid : Int)
  | notRunning
  | stopped
  | runningPid (pid : Int)
  | staleGone (pid : Int)
deriving DecidableEq, Repr

/-- The error a command returns, when it returns one: "failed to start
service", "failed to write PID", or "failed to stop service". -/
inductive Err where
  | startFailed
  | writePidFailed
  | stopFailed
deriving DecidableEq, Repr

/-- A command's return value: `nil` together with the printed status line,
or a non-`nil` error. -/
inductive Outcome where
  | ok (m : Msg)
  | error (e : Err)
deriving DecidableEq, Repr

/-- The spawn-and-register tail of `Daemon.Start`, entered after the
already-running check and stale-record removal: run `cmd.Start()`; on
success write the child's pid, killing the child and surfacing the error
if the write fails. -/
def startSpawn (env : Env) (st : Option String) (evs : List Event) :
    Outcome × Option String × List Event :=
  match env.spawnResult with
  | none => (.error .startFailed, st, evs)
  | some newPid =>
    if env.writeOk then
      (.ok (.started newPid), fileWrite newPid, evs ++ [.spawned newPid, .write newPid])
    else
      (.error .writePidFailed, st, evs ++ [.spawned newPid, .write newPid, .kill newPid])

/-- Model of `Daemon.Start`: read the record; if it parses and its owner is
running, report already-running and do nothing; otherwise remove any
parseable stale record and spawn-and-register. -/
def daemonStart (env : Env) (st : Option String) : Outcome × Option String × List Event :=
  match fileRead st with
  | .ok pid =>
    if env.running pid then (.ok (.alreadyRunning pid), st, [.read])
    else startSpawn env none [.read, .remove]
  | _ => startSpawn env st [.read]

/-- Model of `Daemon.Stop`: read the record; a read error reports
not-running; a stale owner removes the record; a live owner is terminated,
falling back to one kill, and only on success is the record removed. -/
def daemonStop (env : Env) (st : Option String) : Outcome × Option String × List Event :=
  match fileRead st with
  | .ok pid =>
    if !env.running pid then (.ok .notRunning, none, [.read, .remove])
    else if env.terminateOk pid then (.ok .stopped, none, [.read, .terminate pid, .remove])
    else if env.killOk pid then
      (.ok .stopped, none, [.read, .terminate pid, .kill pid, .remove])
    else (.error .stopFailed, st, [.read, .terminate pid, .kill pid])
  | _ => (.ok .notRunning, st, [.read])

/-- Model of `Daemon.Status`: read the record; a read error reports
not-running; a live owner is reported with its pid; a stale record is
removed (self-healing). -/
def daemonStatus (env : Env) (st : Option String) : Outcome × Option String × List Event :=
  match fileRead st with
  | .ok pid =>
    if env.running pid then (.ok (.runningPid pid), st, [.read])
    else (.ok (.staleGone pid), none, [.read, .remove])
  | _ => (.ok .notRunning, st, [.read])

/-- Walks a trace keeping track of whether the advisory lock is held and
checks that every record operation (`read`, `write`, `remove`) happens
while it is held. -/
def lockGuardedAux : Bool → List Event → Bool
  | _, [] => true
  | locked, e :: rest =>
    match e with
    | .lock => lockGuardedAux true rest
    | .unlock => lockGuardedAux false rest
    | .read => locked && lockGuardedAux locked rest
    | .write _ => locked && lockGuardedAux locked rest
    | .remove => locked && lockGuardedAux locked rest
    | _ => lockGuardedAux locked rest

/-- Holds when every registry-record operation in the trace is preceded by
an acquisition of the exclusive advisory lock still in force. -/
def lockGuarded (evs : List Event) : Bool := lockGuardedAux false evs

/-- Holds for the status lines whose printed text states that the service
is not running: "Service is not running" and "PID file exists but process
%d not found". -/
def saysNotRunning : Msg → Bool
  | .notRunning => true
  | .staleGone _ => true
  | _ => false

/-- A concrete environment in which every pid is live and all process
operations succeed. -/
def envLive : Env :=
  { running := fun _ => true
    terminateOk := fun _ => true
    killOk := fun _ => true
    spawnResult := some 4321
    writeOk := true }

example : daemonStatus envLive (some "1234") = (.ok (.runningPid 1234), some "1234", [.read]) := by
  decide
example : daemonStop envLive (some "1234") =
    (.ok .stopped, none, [.read, .terminate 1234, .remove]) := by decide
example : lockGuarded [.read] = false := by decide
example : lockGuarded [.lock, .read, .unlock] = true := by decide

/-! ## Serving process: `traversalProtection` in `internal/server/server.go`

The middleware computes `path.Clean(r.URL.Path)` and answers 403 Forbidden
when the cleaned path contains `".."` or has prefix `"/.."`; otherwise it
calls the wrapped handler with the request `r` untouched.  `path.Clean` is
modelled by its equivalent segment-stack formulation: split on `'/'`, drop
empty and `"."` segments, let `".."` pop a previous segment (or be dropped
at the root of a rooted path, or kept at the head of a relative one), and
rejoin. -/

/-- Splits a character list on `'/'`; always returns at least one word. -/
def splitSlash : List Char → List (List Char)
  | [] => [[]]
  | c :: cs =>
    match splitSlash cs with
    | [] => [[]]
    | w :: ws => if c = '/' then [] :: w :: ws else (c :: w) :: ws

/-- Processes the segments of a path left to right, maintaining the stack of
segments that `path.Clean` keeps (most recent first). -/
def cleanStack (rooted : Bool) (segs : List (List Char)) : List (List Char) :=
  segs.foldl
    (fun stack seg =>
      if seg = [] ∨ seg = ['.'] then stack
      else if seg = ['.', '.'] then
        match stack with
        | [] => if rooted then [] else [['.', '.']]
        | t :: rest => if t = ['.', '.'] then ['.', '.'] :: t :: rest else rest
      else seg :: stack)
    []

/-- Joins words with `'/'`. -/
def joinSlash : List (List Char) → List Char
  | [] => []
  | [w] => w
  | w :: ws => w ++ '/' :: joinSlash ws

/-- Model of Go's `path.Clean` on the character list of a path. -/
def pathCleanL (p : List Char) : List Char :=
  match p with
  | [] => ['.']
  | c :: _ =>
    let rooted := c = '/'
    let body := joinSlash (cleanStack rooted (splitSlash p)).reverse
    if rooted then '/' :: body
    else if body = [] then ['.'] else body

/-- Model of Go's `path.Clean`. -/
def pathClean (s : String) : String := String.mk (pathCleanL s.data)

example : pathClean "/../secret.txt" = "/secret.txt" := by decide
example : pathClean "/a/../../secret.txt" = "/secret.txt" := by decide
example : pathClean "/a/b.txt" = "/a/b.txt" := by decide
example : pathClean "../secret.txt" = "../secret.txt" := by decide
example : pathClean "" = "." := by decide
example : pathClean "/a//b/./c/.." = "/a/b" := by decide

/-- Model of `strings.Contains`: `sub` occurs as a contiguous substring. -/
def containsSub (sub : List Char) : List Char → Bool
  | [] => decide (sub = [])
  | c :: cs => sub.isPrefixOf (c :: cs) || containsSub sub cs

/-- Outcome of `traversalProtection.ServeHTTP`: a 403 Forbidden reply, or
the request forwarded to the wrapped handler carrying the given URL path. -/
inductive GuardOutcome where
  | rejected
  | forwarded (path : String)
deriving DecidableEq, Repr

/-- Model of `traversalProtection.ServeHTTP` on the request's URL path:
clean the path, reject when the cleaned path contains `".."` or starts
with `"/.."`, otherwise forward the request unchanged. -/
def traversalServe (reqPath : String) : GuardOutcome :=
  let cleanPath := pathClean reqPath
  if containsSub ['.', '.'] cleanPath.data || ['/', '.', '.'].isPrefixOf cleanPath.data then
    .rejected
  else .forwarded reqPath

example : traversalServe "/a/b.txt" = .forwarded "/a/b.txt" := by decide
example : traversalServe "../secret.txt" = .rejected := by decide
example : traversalServe "/../secret.txt" = .forwarded "/../secret.txt" := by decide

/-! ## Advisory locking: `internal/pidfile/pidfile_unix.go`

`file.Lock`/`file.Unlock` manage the `fd` field of the `file` struct and
issue `open`/`flock`/`close` system calls; the trace of system calls is
made explicit.  A `none` first component models a non-nil returned error. -/

/-- A system call issued by `file.Lock` / `file.Unlock`, with the file
descriptor it operates on. -/
inductive Sys where
  | openFile (path : String)
  | flockEx (fd : Int)
  | flockUn (fd : Int)
  | closeFd (fd : Int)
deriving DecidableEq, Repr

/-- The `file` struct of `internal/pidfile`: the record's path and the
descriptor used for locking. -/
structure PidFileImpl where
  path : String
  fd : Int
deriving DecidableEq, Repr

/-- Model of `New`/`NewWithPath`: the Go composite literal
`&file{path: path}` leaves the `fd` field at its zero value `0` (the
struct's comment documents `-1` as the not-locked marker, but neither
constructor sets it). -/
def newWithPath (p : String) : PidFileImpl := { path := p, fd := 0 }

/-- Results the OS would give to the system calls of `Lock`/`Unlock`. -/
structure LockEnv where
  openResult : Option Int
  flockOk : Bool
  flockUnOk : Bool

/-- Model of the Unix `file.Lock`: open-or-create the record, take the
blocking exclusive `flock`, and remember the descriptor on success. -/
def fileLock (env : LockEnv) (f : PidFileImpl) : Option PidFileImpl × List Sys :=
  match env.openResult with
  | none => (none, [.openFile f.path])
  | some fd =>
    if env.flockOk then (some { f with fd := fd }, [.openFile f.path, .flockEx fd])
    else (none, [.openFile f.path, .flockEx fd, .closeFd fd])

/-- Model of the Unix `file.Unlock`: a negative `fd` returns immediately;
otherwise `flock(fd, LOCK_UN)` then `close(fd)` and `fd` is set to `-1`. -/
def fileUnlock (env : LockEnv) (f : PidFileImpl) : Option PidFileImpl × List Sys :=
  if f.fd < 0 then (some f, [])
  else if env.flockUnOk then (some { f with fd := -1 }, [.flockUn f.fd, .closeFd f.fd])
  else (none, [.flockUn f.fd])

/-- An environment in which every system call succeeds; `open` returns
descriptor 3. -/
def lockEnvOk : LockEnv := { openResult := some 3, flockOk := true, flockUnOk := true }

example : fileUnlock lockEnvOk (newWithPath "/tmp/gowebdavd.pid") =
    (some { path := "/tmp/gowebdavd.pid", fd := -1 }, [.flockUn 0, .closeFd 0]) := by decide

/-- Number of occurrences of an event in a trace. -/
def countEvent (e : Event) : List Event → Nat
  | [] => 0
  | x :: xs => (if x = e then 1 else 0) + countEvent e xs

/-- A concrete environment in which no pid is live, no process operation
succeeds, and spawning fails. -/
def envDead : Env :=
  { running := fun _ => false
    terminateOk := fun _ => false
    killOk := fun _ => false
    spawnResult := none
    writeOk := false }

/-- A concrete environment in which no pid is live, spawning succeeds with
child pid 4321, and writing the record fails. -/
def envSpawnWriteFail : Env :=
  { running := fun _ => false
    terminateOk := fun _ => false
    killOk := fun _ => false
    spawnResult := some 4321
    writeOk := false }

/-- A concrete environment in which every pid is live but both `Terminate`
and `Kill` fail. -/
def envStopFail : Env :=
  { running := fun _ => true
    terminateOk := fun _ => false
    killOk := fun _ => false
    spawnResult := none
    writeOk := false }

/-- The spawn-and-register tail never acquires the advisory lock. -/
theorem lock_notin_startSpawn (env : Env) (st : Option String) (evs : List Event)
    (h : Event.lock ∉ evs) : Event.lock ∉ (startSpawn env st evs).2.2 := by
  unfold startSpawn
  cases env.spawnResult with
  | none => simpa using h
  | some newPid => cases hw : env.writeOk <;> simp_all [List.mem_append]

/-! ## Claim theorems -/

/-- C1: the claim says every Supervisor command acquires the registry's
exclusive advisory lock before touching the record.  The code does the
opposite: no execution of `Daemon.Start`, `Daemon.Stop` or `Daemon.Status`
ever performs a `Lock` call, and in particular `Status` on a record owned
by a live pid performs a bare `Read` that the lock discipline rejects. -/
theorem C1_commands_never_lock :
    (∀ (env : Env) (st : Option String),
      Event.lock ∉ (daemonStart env st).2.2 ∧
      Event.lock ∉ (daemonStop env st).2.2 ∧
      Event.lock ∉ (daemonStatus env st).2.2) ∧
    (daemonStatus envLive (some "1234")).2.2 = [Event.read] ∧
    lockGuarded (daemonStatus envLive (some "1234")).2.2 = false := by
  refine ⟨?_, by decide, by decide⟩
  intro env st
  refine ⟨?_, ?_, ?_⟩
  · unfold daemonStart
    split
    next pid =>
      split
      · simp
      · exact lock_notin_startSpawn env none _ (by simp)
    all_goals exact lock_notin_startSpawn env st _ (by simp)
  · unfold daemonStop
    split
    next pid =>
      split
      · simp
      · split
        · simp
        · split
          · simp
          · simp
    all_goals simp
  · unfold daemonStatus
    split
    next pid => split <;> simp
    all_goals simp

/-- C2: the claim says the guard rejects `/../secret.txt` and
`/a/../../secret.txt`.  In the code `path.Clean` strips the leading
parent-directory segments of a rooted path before the `".."` check, so both
requests are cleaned to `/secret.txt` and forwarded to the delegate instead
of being rejected; `/a/b.txt` is indeed passed through unchanged. -/
theorem C2_guard_passes_rooted_dotdot :
    traversalServe "/../secret.txt" = .forwarded "/../secret.txt" ∧
    traversalServe "/a/../../secret.txt" = .forwarded "/a/../../secret.txt" ∧
    traversalServe "/a/b.txt" = .forwarded "/a/b.txt" ∧
    pathClean "/../secret.txt" = "/secret.txt" ∧
    pathClean "/a/../../secret.txt" = "/secret.txt" := by
  decide

/-- C3: `Daemon.Start` while the record names a live owning process spawns
nothing, performs no `Write`/`Remove` on the record, leaves the record
unchanged, and returns `nil` after reporting already-running. -/
theorem C3_start_already_running (env : Env) (s : String) (pid : Int)
    (hparse : atoi s = some pid) (hlive : env.running pid = true) :
    daemonStart env (some s) = (.ok (.alreadyRunning pid), some s, [.read]) ∧
    (∀ q, Event.spawned q ∉ (daemonStart env (some s)).2.2) ∧
    (∀ q, Event.write q ∉ (daemonStart env (some s)).2.2) ∧
    Event.remove ∉ (daemonStart env (some s)).2.2 := by
  have hread : fileRead (some s) = .ok pid := by simp [fileRead, hparse]
  have hmain : daemonStart env (some s) = (.ok (.alreadyRunning pid), some s, [.read]) := by
    simp [daemonStart, hread, hlive]
  refine ⟨hmain, ?_, ?_, ?_⟩ <;> simp [hmain]

/-- Witness for C3 at the concrete record `"1234"` with pid 1234 live. -/
theorem C3_witness :
    atoi "1234" = some 1234 ∧ envLive.running 1234 = true ∧
    daemonStart envLive (some "1234") = (.ok (.alreadyRunning 1234), some "1234", [.read]) := by
  exact ⟨by decide, rfl, (C3_start_already_running envLive "1234" 1234 (by decide) rfl).1⟩

/-- C4: on a record whose parseable owner is not live, `Daemon.Stop` and
`Daemon.Status` each remove the record exactly once, report a not-running
status line and return `nil`; rerunning either command on the resulting
empty registry reports not-running again with no further `Remove`. -/
theorem C4_stale_removed_once_idempotent (env : Env) (s : String) (pid : Int)
    (hparse : atoi s = some pid) (hdead : env.running pid = false) :
    daemonStop env (some s) = (.ok .notRunning, none, [.read, .remove]) ∧
    daemonStop env none = (.ok .notRunning, none, [.read]) ∧
    daemonStatus env (some s) = (.ok (.staleGone pid), none, [.read, .remove]) ∧
    daemonStatus env none = (.ok .notRunning, none, [.read]) ∧
    saysNotRunning Msg.notRunning = true ∧
    saysNotRunning (.staleGone pid) = true ∧
    countEvent .remove (daemonStop env (some s)).2.2 = 1 ∧
    countEvent .remove (daemonStop env none).2.2 = 0 ∧
    countEvent .remove (daemonStatus env (some s)).2.2 = 1 ∧
    countEvent .remove (daemonStatus env none).2.2 = 0 := by
  have hread : fileRead (some s) = .ok pid := by simp [fileRead, hparse]
  have hstop : daemonStop env (some s) = (.ok .notRunning, none, [.read, .remove]) := by
    simp [daemonStop, hread, hdead]
  have hstatus : daemonStatus env (some s) = (.ok (.staleGone pid), none, [.read, .remove]) := by
    simp [daemonStatus, hread, hdead]
  have hstop2 : daemonStop env none = (.ok .notRunning, none, [.read]) := by
    simp [daemonStop, fileRead]
  have hstatus2 : daemonStatus env none = (.ok .notRunning, none, [.read]) := by
    simp [daemonStatus, fileRead]
  refine ⟨hstop, hstop2, hstatus, hstatus2, rfl, rfl, ?_, ?_, ?_, ?_⟩
  · rw [hstop]; rfl
  · rw [hstop2]; rfl
  · rw [hstatus]; rfl
  · rw [hstatus2]; rfl

/-- Witness for C4 at the concrete record `"1234"` with no live pid. -/
theorem C4_witness :
    atoi "1234" = some 1234 ∧ envDead.running 1234 = false ∧
    daemonStop envDead (some "1234") = (.ok .notRunning, none, [.read, .remove]) ∧
    daemonStop envDead none = (.ok .notRunning, none, [.read]) := by
  have h := C4_stale_removed_once_idempotent envDead "1234" 1234 (by decide) rfl
  exact ⟨by decide, rfl, h.1, h.2.1⟩

/-- C5: stopping a live instance: a `Terminate` failure triggers exactly
one `Kill` attempt and a `Terminate` success triggers none; when both
`Terminate` and the `Kill` fallback fail the command returns the error and
the record survives with no `Remove`; when either succeeds the record is
removed and "stopped" is reported with return value `nil`. -/
theorem C5_stop_escalation (env : Env) (s : String) (pid : Int)
    (hparse : atoi s = some pid) (hlive : env.running pid = true) :
    (env.terminateOk pid = false →
      countEvent (.kill pid) (daemonStop env (some s)).2.2 = 1) ∧
    (env.terminateOk pid = true →
      countEvent (.kill pid) (daemonStop env (some s)).2.2 = 0) ∧
    (env.terminateOk pid = false → env.killOk pid = false →
      daemonStop env (some s) =
        (.error .stopFailed, some s, [.read, .terminate pid, .kill pid])) ∧
    (env.terminateOk pid = true ∨ env.killOk pid = true →
      (daemonStop env (some s)).1 = .ok .stopped ∧
      (daemonStop env (some s)).2.1 = none ∧
      countEvent .remove (daemonStop env (some s)).2.2 = 1) := by
  have hread : fileRead (some s) = .ok pid := by simp [fileRead, hparse]
  cases ht : env.terminateOk pid <;> cases hk : env.killOk pid <;>
    simp [daemonStop, hread, hlive, ht, hk, countEvent]

/-- Witness for C5: pid 1234 live, `Terminate` fails, `Kill` fails. -/
theorem C5_witness :
    atoi "1234" = some 1234 ∧ envStopFail.running 1234 = true ∧
    envStopFail.terminateOk 1234 = false ∧ envStopFail.killOk 1234 = false ∧
    countEvent (.kill 1234) (daemonStop envStopFail (some "1234")).2.2 = 1 ∧
    daemonStop envStopFail (some "1234") =
      (.error .stopFailed, some "1234", [.read, .terminate 1234, .kill 1234]) := by
  have h := C5_stop_escalation envStopFail "1234" 1234 (by decide) rfl
  exact ⟨by decide, rfl, rfl, rfl, h.1 rfl, h.2.2.1 rfl rfl⟩

/-- C6: when `Daemon.Start` spawns the detached process but writing its pid
to the registry fails, the spawned process is killed exactly once, the
error is surfaced, and no record of the spawned pid is left behind: the
registry ends empty, except that a pre-existing unparseable record (which
this invocation never wrote) survives untouched. -/
theorem C6_start_write_failure_cleanup (env : Env) (st : Option String) (newPid : Int)
    (hspawn : env.spawnResult = some newPid) (hw : env.writeOk = false)
    (hnotlive : ∀ pid, fileRead st = .ok pid → env.running pid = false)
    (h0 : 0 < newPid) (h63 : newPid < 2 ^ 63) :
    (daemonStart env st).1 = .error .writePidFailed ∧
    countEvent (.kill newPid) (daemonStart env st).2.2 = 1 ∧
    ((daemonStart env st).2.1 = none ∨
      (fileRead st = .corrupt ∧ (daemonStart env st).2.1 = st)) ∧
    (daemonStart env st).2.1 ≠ some (intToString newPid) := by
  have hss : ∀ (st0 : Option String) (evs : List Event), startSpawn env st0 evs =
      (.error .writePidFailed, st0, evs ++ [.spawned newPid, .write newPid, .kill newPid]) := by
    intro st0 evs
    simp [startSpawn, hspawn, hw]
  cases hread : fileRead st with
  | ok pid =>
    have hrun := hnotlive pid hread
    have hmain : daemonStart env st = (.error .writePidFailed, none,
        [.read, .remove, .spawned newPid, .write newPid, .kill newPid]) := by
      unfold daemonStart
      rw [hread]
      simp [hrun, hss]
    refine ⟨by rw [hmain], ?_, Or.inl (by rw [hmain]), by rw [hmain]; simp⟩
    rw [hmain]
    simp [countEvent]
  | notFound =>
    have hst : st = none := by
      cases st with
      | none => rfl
      | some s =>
        exfalso
        unfold fileRead at hread
        cases h : atoi s <;> simp [h] at hread
    subst hst
    have hmain : daemonStart env none = (.error .writePidFailed, none,
        [.read, .spawned newPid, .write newPid, .kill newPid]) := by
      simp [daemonStart, fileRead, hss]
    refine ⟨by rw [hmain], ?_, Or.inl (by rw [hmain]), by rw [hmain]; simp⟩
    rw [hmain]
    simp [countEvent]
  | corrupt =>
    have hmain : daemonStart env st = (.error .writePidFailed, st,
        [.read, .spawned newPid, .write newPid, .kill newPid]) := by
      unfold daemonStart
      rw [hread]
      simp [hss]
    refine ⟨by rw [hmain], ?_, ?_, ?_⟩
    · rw [hmain]
      simp [countEvent]
    · refine Or.inr ⟨rfl, ?_⟩
      rw [hmain]
    · rw [hmain]
      show st ≠ some (intToString newPid)
      intro heq
      rw [heq] at hread
      simp [fileRead, atoi_intToString newPid h0 h63] at hread

/-- Witness for C6: empty registry, spawn succeeds with pid 4321, write
fails; the command errors and the child is killed. -/
theorem C6_witness :
    envSpawnWriteFail.spawnResult = some 4321 ∧ envSpawnWriteFail.writeOk = false ∧
    (daemonStart envSpawnWriteFail none).1 = .error .writePidFailed ∧
    countEvent (.kill 4321) (daemonStart envSpawnWriteFail none).2.2 = 1 ∧
    (daemonStart envSpawnWriteFail none).2.1 ≠ some (intToString 4321) := by
  have h := C6_start_write_failure_cleanup envSpawnWriteFail none 4321 rfl rfl
    (fun pid hpid => by simp [fileRead] at hpid) (by decide) (by decide)
  exact ⟨rfl, rfl, h.1, h.2.1, h.2.2.2⟩

/-- C7: the registry round-trips pids: `Write(pid)` then `Read()` yields
`pid` for every positive pid in the 64-bit signed range, and `Read()` of a
record whose content does not parse as an integer returns the `Corrupt`
outcome (a value of the total function `fileRead`, never a crash). -/
theorem C7_write_read_roundtrip :
    (∀ pid : Int, 0 < pid → pid < 2 ^ 63 → fileRead (fileWrite pid) = .ok pid) ∧
    (∀ s : String, atoi s = none → fileRead (some s) = .corrupt) := by
  constructor
  · intro pid h0 h63
    simp [fileRead, fileWrite, atoi_intToString pid h0 h63]
  · intro s hs
    simp [fileRead, hs]

/-- Witness for C7 at pid 12345 and the non-numeric content `"invalid"`
used by the repository's own test. -/
theorem C7_witness :
    fileRead (fileWrite 12345) = .ok 12345 ∧ atoi "invalid" = none ∧
    fileRead (some "invalid") = .corrupt := by
  exact ⟨C7_write_read_roundtrip.1 12345 (by decide) (by decide), by decide,
    C7_write_read_roundtrip.2 "invalid" (by decide)⟩

/-- C8 counterexample: on the corrupt record `"invalid"`, `Daemon.Stop` and
`Daemon.Status` do not surface the parse error to their caller: both return
`nil` and print "Service is not running", exactly the silent success the
claim rules out (the record is indeed left in place). -/
theorem C8_counterexample :
    fileRead (some "invalid") = .corrupt ∧
    daemonStop envLive (some "invalid") = (.ok .notRunning, some "invalid", [.read]) ∧
    daemonStatus envLive (some "invalid") = (.ok .notRunning, some "invalid", [.read]) := by
  decide

/-- C8 (amended): on a record whose content is unparseable, `Daemon.Stop`
and `Daemon.Status` treat it like an absent record: each reports
"Service is not running" and returns `nil`, leaving the corrupt record in
place — not removed and not overwritten — while the parse error itself is
not surfaced. -/
theorem C8_corrupt_silently_not_running (env : Env) (s : String) (hs : atoi s = none) :
    daemonStop env (some s) = (.ok .notRunning, some s, [.read]) ∧
    daemonStatus env (some s) = (.ok .notRunning, some s, [.read]) := by
  have hread : fileRead (some s) = .corrupt := by simp [fileRead, hs]
  constructor
  · unfold daemonStop
    rw [hread]
  · unfold daemonStatus
    rw [hread]

/-- Witness for C8 at the concrete corrupt content `"garbage"`. -/
theorem C8_witness :
    atoi "garbage" = none ∧
    daemonStop envDead (some "garbage") = (.ok .notRunning, some "garbage", [.read]) ∧
    daemonStatus envDead (some "garbage") = (.ok .notRunning, some "garbage", [.read]) := by
  have h := C8_corrupt_silently_not_running envDead "garbage" (by decide)
  exact ⟨by decide, h.1, h.2⟩

/-- C9: the claim says `Unlock()` on a freshly created, never-locked `File`
is a no-op touching no file descriptor.  In the code the constructors leave
`fd` at Go's zero value `0`, which passes the `fd < 0` not-locked guard, so
the first `Unlock()` of a fresh `File` issues `flock(0, LOCK_UN)` and
`close(0)` on descriptor 0 — while after a `Lock()`/`Unlock()` pair (where
`fd` is `-1`) a second `Unlock()` really is a no-op. -/
theorem C9_fresh_unlock_touches_fd_zero :
    (newWithPath "/tmp/gowebdavd.pid").fd = 0 ∧
    fileUnlock lockEnvOk (newWithPath "/tmp/gowebdavd.pid") =
      (some { path := "/tmp/gowebdavd.pid", fd := -1 }, [.flockUn 0, .closeFd 0]) ∧
    (fileUnlock lockEnvOk (newWithPath "/tmp/gowebdavd.pid")).2 ≠ [] ∧
    (fileLock lockEnvOk (newWithPath "/tmp/gowebdavd.pid")).1.map
        (fun f => fileUnlock lockEnvOk f) =
      some (some { path := "/tmp/gowebdavd.pid", fd := -1 }, [.flockUn 3, .closeFd 3]) ∧
    (fileUnlock lockEnvOk { path := "/tmp/gowebdavd.pid", fd := -1 }) =
      (some { path := "/tmp/gowebdavd.pid", fd := -1 }, []) := by
  decide

/-- C10: every request the traversal guard does not reject is forwarded to
the delegated handler carrying its original URL path; the cleaned path is
computed only for the check, as the forwarded `/a//b/../c` (whose cleaned
form differs) shows. -/
theorem C10_forward_unchanged :
    (∀ p : String, traversalServe p ≠ .rejected → traversalServe p = .forwarded p) ∧
    traversalServe "/a//b/../c" = .forwarded "/a//b/../c" ∧
    pathClean "/a//b/../c" ≠ "/a//b/../c" := by
  refine ⟨?_, by decide, by decide⟩
  intro p h
  simp only [traversalServe] at h ⊢
  by_cases hc : (containsSub ['.', '.'] (pathClean p).data ||
      ['/', '.', '.'].isPrefixOf (pathClean p).data) = true
  · rw [if_pos hc] at h
    exact absurd rfl h
  · rw [if_neg hc]

/-- Witness for C10 at the in-scope request path `/a/b.txt`. -/
theorem C10_witness :
    traversalServe "/a/b.txt" ≠ .rejected ∧
    traversalServe "/a/b.txt" = .forwarded "/a/b.txt" := by
  exact ⟨by decide, C10_forward_unchanged.1 "/a/b.txt" (by decide)⟩

end Gowebdavd
